import Mathlib

/-!
Verification of the resumable checkpointed batch-processing engine of the
Daily-Upload-Data-Notifier repository, shallowly embedded from
`summaryengine/generate_file_summaries.js` and
`summaryengine/resume_summaries.js`.

JS strings are modelled as `List Char`; every remote interaction (S3
download, Claude API attempt) is an oracle parameter, so a run is a pure
function of the catalog, the checkpoint file state and the oracle.
-/

set_option maxRecDepth 8000

namespace SummaryEngine

/-- One work item row as produced by `readFilesFromExcel`
(generate_file_summaries.js:90-107): bucket, key, file name, directory,
size. -/
structure FileEntry where
  bucket : String
  key : String
  fileName : String
  directory : String
  size : Nat
deriving DecidableEq, Repr

/-- JS `String.prototype.trim` whitespace test, restricted to the ASCII
whitespace characters (tab, LF, VT, FF, CR, space); the further Unicode
whitespace JS also strips does not occur in this development's data. -/
def jsWhitespace (c : Char) : Bool :=
  c == ' ' || c == '\t' || c == '\n' || c == '\r' || c == '\x0b' || c == '\x0c'

/-- JS `s.trim()`: strip leading and trailing whitespace. -/
def jsTrim (s : List Char) : List Char :=
  ((s.dropWhile jsWhitespace).reverse.dropWhile jsWhitespace).reverse

/-- JS `s.split('\n')`. -/
def splitNl : List Char → List (List Char)
  | [] => [[]]
  | c :: rest =>
    if c = '\n' then [] :: splitNl rest
    else
      match splitNl rest with
      | [] => [[c]]
      | h :: t => (c :: h) :: t

/-- JS `parts.join('\n')`. -/
def joinNl : List (List Char) → List Char
  | [] => []
  | [l] => l
  | l :: rest => l ++ '\n' :: joinNl rest

/-- The source's 3-line truncation of a Claude response
(generate_file_summaries.js:218-223): trim the response text, split on
newlines, keep only lines whose own trim is non-empty (JS truthiness of
`l.trim()`), take the first 3, join with newlines. -/
def truncateSummary (text : List Char) : List Char :=
  joinNl (((splitNl (jsTrim text)).filter fun l => !(jsTrim l).isEmpty).take 3)

/-- generate_file_summaries.js:251. -/
def apiFailureSentinel : List Char :=
  "Error generating summary (API failure after retries)".data

/-- generate_file_summaries.js:332. -/
def binarySentinel : List Char :=
  "Binary file or unable to read content".data

/-- generate_file_summaries.js:343 tests `briefing.startsWith('Error generating summary')`. -/
def errPre : List Char := "Error generating summary".data

/-- Outcome of one Claude API attempt as seen by the retry loop in
`generateSummaryWithClaude`: success carrying the response text, or an
error whose HTTP status may be 429 (rate limit).  A timeout of the
`Promise.race` is an error outcome like any other thrown error. -/
inductive GenOutcome where
  | ok (text : List Char)
  | err (is429 : Bool)
deriving DecidableEq, Repr

/-- Observable result of `generateSummaryWithClaude`: the returned string,
the `setTimeout` waits performed between attempts (in ms, in order), and
how many attempts were made. -/
structure GenResult where
  summary : List Char
  waits : List Nat
  attempts : Nat
deriving DecidableEq, Repr

/-- The retry loop of `generateSummaryWithClaude`
(generate_file_summaries.js:179-253), with the per-attempt outcome given
by the oracle `resp`.  `for (attempt = 1; attempt <= retries; attempt++)`:
on success return the truncated summary; on a 429 error with
`attempt < retries` wait `attempt * 10000` ms and continue; on any other
error with `attempt < retries` wait 5000 ms and continue; otherwise return
the api-failure sentinel string.  The fuel argument counts the remaining
iterations (`retries - attempt + 1`). -/
def genAttempts (resp : Nat → GenOutcome) (retries : Nat) : Nat → Nat → GenResult
  | 0, _ => ⟨apiFailureSentinel, [], 0⟩
  | fuel + 1, attempt =>
    match resp attempt with
    | .ok text => ⟨truncateSummary text, [], 1⟩
    | .err is429 =>
      if attempt < retries then
        let w := if is429 then attempt * 10000 else 5000
        let rest := genAttempts resp retries fuel (attempt + 1)
        ⟨rest.summary, w :: rest.waits, rest.attempts + 1⟩
      else ⟨apiFailureSentinel, [], 1⟩

/-- `generateSummaryWithClaude(fileName, directory, fileContent, retries = 3)`. -/
def generateSummaryWithClaude (resp : Nat → GenOutcome) : GenResult :=
  genAttempts resp 3 3 1

/-- generate_file_summaries.js:150-153: count of characters with code
below 32 other than tab (9), newline (10), carriage return (13). -/
def nonPrintableCount (content : List Char) : Nat :=
  (content.filter fun c =>
    decide (c.toNat < 32 ∧ c.toNat ≠ 9 ∧ c.toNat ≠ 10 ∧ c.toNat ≠ 13)).length

/-- generate_file_summaries.js:157: `nonPrintable > content.length * 0.3`.
For the integer operands occurring here the double comparison against
`0.3` agrees with the exact rational 3/10 (the rounding error of the
double nearest 0.3 never crosses an integer boundary of `n/10`), so it is
embedded as the exact comparison `10 * nonPrintable > 3 * length`. -/
def isBinaryContent (content : List Char) : Bool :=
  decide (10 * nonPrintableCount content > 3 * content.length)

/-- What the S3 download of one item yields before classification: a
thrown error, or the decoded content string. -/
inductive FetchOutcome where
  | error
  | ok (content : List Char)
deriving DecidableEq, Repr

/-- `downloadFileContent` (generate_file_summaries.js:118-173): a thrown
download error is caught and returns `null` (`none`); content classified
as binary returns `null`; otherwise the content truncated to 50000
characters is returned. -/
def downloadFileContent (fetch : FetchOutcome) : Option (List Char) :=
  match fetch with
  | .error => none
  | .ok content =>
    if isBinaryContent content then none else some (content.take 50000)

/-- What one iteration of the main loop observes for one item: the
briefing string pushed to `summaries`, whether the item took the skip
branch (`if (!content)`), and the attempts/waits of the generation call
(0 attempts when no generation call was made). -/
structure ItemOutcome where
  briefing : List Char
  skipped : Bool
  genAttemptsMade : Nat
  genWaits : List Nat
deriving DecidableEq, Repr

/-- The per-item part of the loop body (generate_file_summaries.js:323-355):
download; `if (!content)` — null or the empty string — take the skip
branch with the binary sentinel and no generation call; otherwise call
`generateSummaryWithClaude`. -/
def processItem (fetch : FetchOutcome) (resp : Nat → GenOutcome) : ItemOutcome :=
  match downloadFileContent fetch with
  | none => ⟨binarySentinel, true, 0, []⟩
  | some c =>
    if c.isEmpty then ⟨binarySentinel, true, 0, []⟩
    else
      let g := generateSummaryWithClaude resp
      ⟨g.summary, false, g.attempts, g.waits⟩

/-- One row of the in-memory `summaries` array / the final Excel artifact
(generate_file_summaries.js:370-374): 'File Name', 'File Directory',
'Briefing by LLM'. -/
structure SummaryRow where
  fileName : String
  fileDirectory : String
  briefing : List Char
deriving DecidableEq, Repr

/-- The checkpoint object written to `progress_summaries.json`
(generate_file_summaries.js:388-393); the `timestamp` field plays no role
in any claim and is omitted. -/
structure Snapshot where
  excelPath : String
  summaries : List SummaryRow
  lastProcessed : Nat
deriving DecidableEq, Repr, Inhabited

/-- Observable effects of a run, in program order: the S3 download call
for item `i`, an inter-item `setTimeout` delay, the push of item `i`'s
row, a checkpoint save, the final artifact write, the checkpoint file
deletion. -/
inductive Ev where
  | fetchCall (i : Nat)
  | delay (i : Nat) (ms : Nat)
  | row (i : Nat) (r : SummaryRow)
  | save (s : Snapshot)
  | writeArtifact (rows : List SummaryRow)
  | deleteCheckpoint
deriving DecidableEq, Repr

/-- Mutable state of the main loop: the `summaries` array, the
`skippedCount` and `errorCount` counters, and the trace of effects so
far. -/
structure LoopState where
  summaries : List SummaryRow
  skippedCount : Nat
  errorCount : Nat
  trace : List Ev
deriving DecidableEq, Repr

/-- The remote world, per global item index: the download outcome and the
per-attempt generation outcomes for that item. -/
def Oracle := Nat → FetchOutcome × (Nat → GenOutcome)

/-- One iteration of the main loop at 0-based index `i` (source:
`processed = i + 1`), generate_file_summaries.js:304-398: download,
skip-or-generate, the 3s inter-item delay inside the non-skip branch when
`processed < filesToProcess.length`, push the row, then save the
checkpoint when `processed % 10 === 0` with `summaries` (after the push)
and `lastProcessed: processed`. -/
def stepItem (N : Nat) (excelPath : String) (f : FileEntry)
    (fetch : FetchOutcome) (resp : Nat → GenOutcome) (i : Nat)
    (st : LoopState) : LoopState :=
  let o := processItem fetch resp
  let r : SummaryRow := ⟨f.fileName, f.directory, o.briefing⟩
  let delayEvs : List Ev :=
    if o.skipped then [] else if i + 1 < N then [Ev.delay i 3000] else []
  let newSummaries := st.summaries ++ [r]
  let saveEvs : List Ev :=
    if (i + 1) % 10 = 0 then [Ev.save ⟨excelPath, newSummaries, i + 1⟩] else []
  { summaries := newSummaries
    skippedCount := st.skippedCount + (if o.skipped then 1 else 0)
    errorCount :=
      st.errorCount + (if !o.skipped && List.isPrefixOf errPre o.briefing then 1 else 0)
    trace := st.trace ++ [Ev.fetchCall i] ++ delayEvs ++ [Ev.row i r] ++ saveEvs }

/-- `for (let i = startIndex; i < filesToProcess.length; i++)`: iterate
`stepItem` over the remaining catalog suffix, carrying the global index. -/
def loopAux (excelPath : String) (N : Nat) (oracle : Oracle) :
    List FileEntry → Nat → LoopState → LoopState
  | [], _, st => st
  | f :: rest, i, st =>
    loopAux excelPath N oracle rest (i + 1)
      (stepItem N excelPath f (oracle i).1 (oracle i).2 i st)

/-- State of the checkpoint file on disk at run start: absent, present
but not parseable as JSON, or present and parsed to a snapshot. -/
inductive CheckpointFile where
  | absent
  | corrupt
  | valid (s : Snapshot)
deriving DecidableEq, Repr

/-- The resume block of `generateFileSummaries`
(generate_file_summaries.js:281-293): if the progress file exists, try to
parse it — a parse failure is caught, logged as a warning and ignored; a
parsed snapshot seeds `summaries` and `startIndex = summaries.length`
only when its `excelPath` equals the current report path. -/
def loadProgress (excelReportPath : String) (cp : CheckpointFile) :
    List SummaryRow × Nat :=
  match cp with
  | .absent => ([], 0)
  | .corrupt => ([], 0)
  | .valid s =>
    if s.excelPath = excelReportPath then (s.summaries, s.summaries.length)
    else ([], 0)

/-- Result of `generateFileSummaries`: the effect trace, whether it
returned normally (no exception escaped), and the rows of the final
artifact (`none` when no artifact was produced). -/
structure RunResult where
  trace : List Ev
  completed : Bool
  output : Option (List SummaryRow)
deriving DecidableEq, Repr

/-- The post-artifact cleanup (generate_file_summaries.js:470-477):
`if (fs.existsSync(progressFile)) fs.unlinkSync(progressFile)` — the
progress file exists at that point iff it existed at run start or a
checkpoint save happened during the loop. -/
def cleanupEvents (cp : CheckpointFile) (tr : List Ev) : List Ev :=
  if (match cp with | CheckpointFile.absent => false | _ => true) ||
      tr.any (fun e => match e with | Ev.save _ => true | _ => false) then
    [Ev.deleteCheckpoint]
  else []

/-- `generateFileSummaries(excelReportPath, saveDir)`
(generate_file_summaries.js:256-484): empty catalog returns null at once;
otherwise load the checkpoint, run the loop from `startIndex`, write the
artifact (`XLSX.writeFile`, not wrapped in try/catch: a write failure
propagates out before any cleanup), then delete the progress file if it
exists.  `artifactWriteOk` is the oracle for the artifact write. -/
def generateFileSummaries (excelPath : String) (files : List FileEntry)
    (cp : CheckpointFile) (oracle : Oracle) (artifactWriteOk : Bool) :
    RunResult :=
  if files.isEmpty then ⟨[], true, none⟩
  else
    let seed := loadProgress excelPath cp
    let st := loopAux excelPath files.length oracle (files.drop seed.2) seed.2
      ⟨seed.1, 0, 0, []⟩
    if artifactWriteOk then
      ⟨st.trace ++ [Ev.writeArtifact st.summaries] ++
        cleanupEvents cp st.trace,
       true, some st.summaries⟩
    else ⟨st.trace, false, none⟩

/-- `checkProgress` (resume_summaries.js:21-72): no file → null; file
present but unparseable → the error is caught, logged, and null is
returned; otherwise the parsed snapshot. -/
def checkProgress (cp : CheckpointFile) : Option Snapshot :=
  match cp with
  | .absent => none
  | .corrupt => none
  | .valid s => some s

/-- Result of the `resume` CLI command: the process exit code, and the
run it started, if any. -/
structure ResumeOutcome where
  exitCode : Nat
  run : Option RunResult
deriving DecidableEq, Repr

/-- `resumeSummaries` (resume_summaries.js:93-124): when `checkProgress`
yields nothing (also for a corrupt file) it logs "Cannot resume" and
returns — the process then exits 0 without touching any item; otherwise
it invokes `generateFileSummaries` and exits 1 only if that throws. -/
def resumeSummaries (cp : CheckpointFile) (files : List FileEntry)
    (oracle : Oracle) (artifactWriteOk : Bool) : ResumeOutcome :=
  match checkProgress cp with
  | none => ⟨0, none⟩
  | some p =>
    let r := generateFileSummaries p.excelPath files cp oracle artifactWriteOk
    ⟨if r.completed then 0 else 1, some r⟩

/-- The row the loop pushes for file `f` under oracle entry `orc`. -/
def rowOf (orc : FetchOutcome × (Nat → GenOutcome)) (f : FileEntry) :
    SummaryRow :=
  ⟨f.fileName, f.directory, (processItem orc.1 orc.2).briefing⟩

/-- The rows the loop produces for a catalog suffix starting at global
index `i`. -/
def rowsOf (oracle : Oracle) : List FileEntry → Nat → List SummaryRow
  | [], _ => []
  | f :: rest, i => rowOf (oracle i) f :: rowsOf oracle rest (i + 1)

/-- The checkpoint snapshots saved along a trace, in order. -/
def savesOf : List Ev → List Snapshot
  | [] => []
  | Ev.save s :: rest => s :: savesOf rest
  | _ :: rest => savesOf rest

/-- How many times the download of item `i` was invoked along a trace. -/
def fetchCallsFor (i : Nat) (tr : List Ev) : Nat :=
  (tr.filter fun e => e = Ev.fetchCall i).length

/-- Primitive filesystem operations, for the checkpoint-save atomicity
analysis: an in-place whole-file write, and an atomic rename. -/
inductive FsOp where
  | write (p : String) (content : List Char)
  | rename (src dst : String)
deriving Repr

/-- A filesystem: path to file content, `none` when absent. -/
def FileSys := String → Option (List Char)

/-- Effect of one completed operation. -/
def applyOp (fs : FileSys) : FsOp → FileSys
  | .write p c => fun q => if q = p then some c else fs q
  | .rename src dst =>
    fun q => if q = dst then fs src else if q = src then none else fs q

/-- The filesystem states observable if the process is killed while the
operation is in progress: an in-place write truncates and then appends,
so every prefix of the new content can be observed at the path; a rename
is atomic (old state or new state only). -/
def duringOp (fs : FileSys) : FsOp → List FileSys
  | .write p c =>
    fs :: (List.range (c.length + 1)).map fun k =>
      fun q => if q = p then some (c.take k) else fs q
  | .rename src dst => [fs, applyOp fs (.rename src dst)]

/-- All filesystem states observable if the process is killed at any
point while the operation list runs. -/
def crashStates (fs : FileSys) : List FsOp → List FileSys
  | [] => [fs]
  | op :: rest => duringOp fs op ++ crashStates (applyOp fs op) rest

/-- The checkpoint save (generate_file_summaries.js:388-393):
`fs.writeFileSync(progressFile, JSON.stringify(...))` — a single direct
in-place write of the serialized snapshot to the checkpoint path. -/
def saveProgressOps (progressFile : String) (payload : List Char) :
    List FsOp :=
  [FsOp.write progressFile payload]

/-- The non-blank lines of a response, as in the claim's words: split the
trimmed response text on newlines and remove the empty (blank after
trimming) lines. -/
def nonblankLines (text : List Char) : List (List Char) :=
  (splitNl (jsTrim text)).filter fun l => !(jsTrim l).isEmpty

/-- Written from the claim's words (the spec side of C10): the first at
most 3 non-empty lines of the remote response, empty lines removed, the
remaining lines joined with newlines. -/
def specFirstThreeNonEmptyLines (text : List Char) : List Char :=
  joinNl ((nonblankLines text).take 3)

/-- Snapshot `b` strictly extends snapshot `a`: a later checkpoint has a
strictly larger processed index and its results start with the earlier
ones. -/
def snapExtends (a b : Snapshot) : Prop :=
  a.lastProcessed < b.lastProcessed ∧ ∃ t, a.summaries ++ t = b.summaries

/-- Events the loop body can emit (everything except the artifact write
and the checkpoint deletion, which only the post-loop code emits). -/
def Ev.isLoopEv : Ev → Bool
  | .writeArtifact _ => false
  | .deleteCheckpoint => false
  | _ => true

/-- Fixtures shared by the concrete witnesses and counterexamples. -/
def fileA : FileEntry := ⟨"bkt", "dir/a.txt", "a.txt", "dir", 10⟩

def fileB : FileEntry := ⟨"bkt", "dir/b.txt", "b.txt", "dir", 20⟩

/-- An oracle where every download succeeds with readable text and every
generation attempt succeeds. -/
def oracleOkS : Oracle :=
  fun _ => (FetchOutcome.ok ['h', 'i'], fun _ => GenOutcome.ok ['s'])

/-- Ten identical catalog items, enough to trigger one checkpoint save. -/
def tenFiles : List FileEntry := List.replicate 10 fileA

/-- A rate-limit failure on attempts 1 and 2 then success on attempt 3. -/
def respTwice429 : Nat → GenOutcome :=
  fun n => if n ≤ 2 then GenOutcome.err true else GenOutcome.ok ['o', 'k']

/-- An oracle where item 0's download throws and every other item
succeeds. -/
def oracleFetchFail : Oracle :=
  fun i => (if i = 0 then FetchOutcome.error else FetchOutcome.ok ['h', 'i'],
            fun _ => GenOutcome.ok ['s'])

/-- The checkpoint path. -/
def cpPath : String := "progress_summaries.json"

/-- A filesystem holding an older checkpoint at the checkpoint path. -/
def cpOldFs : FileSys :=
  fun q => if q = cpPath then some "oldcontent".data else none

/-- The serialized new snapshot being saved. -/
def cpNewPayload : List Char := "newpayload".data

/-- The filesystem state observed when the process dies after the
in-place write has emitted only the first character. -/
def cpMidState : FileSys :=
  fun q => if q = cpPath then some (cpNewPayload.take 1) else cpOldFs q

lemma one_le_genAttempts (resp : Nat → GenOutcome) :
    1 ≤ (generateSummaryWithClaude resp).attempts := by
  cases h : resp 1 <;> simp [generateSummaryWithClaude, genAttempts, h]

lemma processItem_ok (content : List Char) (resp : Nat → GenOutcome) :
    processItem (FetchOutcome.ok content) resp =
      if 10 * nonPrintableCount content > 3 * content.length then
        ⟨binarySentinel, true, 0, []⟩
      else if content = [] then ⟨binarySentinel, true, 0, []⟩
      else
        ⟨(generateSummaryWithClaude resp).summary, false,
         (generateSummaryWithClaude resp).attempts,
         (generateSummaryWithClaude resp).waits⟩ := by
  by_cases hb : 10 * nonPrintableCount content > 3 * content.length
  · simp [processItem, downloadFileContent, isBinaryContent, hb]
  · by_cases he : content = []
    · subst he
      simp [processItem, downloadFileContent, isBinaryContent, hb,
        nonPrintableCount]
    · have ht : content.take 50000 ≠ [] := by
        intro h
        rcases List.take_eq_nil_iff.mp h with h' | h'
        · exact absurd h' (by norm_num)
        · exact he h'
      simp [processItem, downloadFileContent, isBinaryContent, hb, he,
        List.isEmpty_iff, ht]

/-- C4 (as stated) is false at the empty content string: the caller's
`if (!content)` test is a JS falsiness test, and the empty string is
falsy, so empty content is skipped with no generation call although its
non-printable fraction (0 of 0) does not exceed 30%. -/
theorem binary_classification_counterexample :
    (processItem (FetchOutcome.ok []) fun _ => GenOutcome.ok ['s']).skipped
        = true ∧
    ¬(10 * nonPrintableCount [] > 3 * ([] : List Char).length) := by
  constructor
  · decide
  · decide

/-- C4 amended: for every fetched content string, the content is skipped
with no generation call exactly when the count of characters with code
below 32 (tab, LF, CR excepted) exceeds 30% of the length, **or the
content is empty** (the empty string is falsy and takes the same skip
branch).  Content at exactly 31% non-printable is always skipped; nonempty
content at exactly 29% is always passed to generation. -/
theorem binary_classification_amended :
    ∀ (content : List Char) (resp : Nat → GenOutcome),
      ((processItem (FetchOutcome.ok content) resp).skipped = true ↔
        (10 * nonPrintableCount content > 3 * content.length ∨ content = [])) ∧
      ((processItem (FetchOutcome.ok content) resp).skipped = true →
        (processItem (FetchOutcome.ok content) resp).genAttemptsMade = 0) ∧
      (100 * nonPrintableCount content = 31 * content.length →
        (processItem (FetchOutcome.ok content) resp).skipped = true) ∧
      (100 * nonPrintableCount content = 29 * content.length → content ≠ [] →
        (processItem (FetchOutcome.ok content) resp).skipped = false ∧
        1 ≤ (processItem (FetchOutcome.ok content) resp).genAttemptsMade) := by
  intro content resp
  rw [processItem_ok]
  by_cases hb : 10 * nonPrintableCount content > 3 * content.length
  · rw [if_pos hb]
    refine ⟨by simp [hb], by simp, by simp, ?_⟩
    intro h29 hne
    have hlen : content.length ≠ 0 := fun h => hne (List.length_eq_zero.mp h)
    exfalso
    omega
  · rw [if_neg hb]
    by_cases he : content = []
    · rw [if_pos he]
      refine ⟨by simp [he], by simp, by simp, ?_⟩
      intro _ hne
      exact absurd he hne
    · rw [if_neg he]
      have hlen : content.length ≠ 0 := fun h => he (List.length_eq_zero.mp h)
      refine ⟨by simp [hb, he], by simp, ?_, ?_⟩
      · intro h31
        exfalso
        omega
      · intro _ _
        exact ⟨rfl, one_le_genAttempts resp⟩

/-- C5: the generation call makes at most 3 attempts; a 429 failure on
attempts 1 and 2 followed by success on attempt 3 waits exactly 10s then
20s; when all three attempts fail the per-attempt waits are 10s/20s for
429 failures and a fixed 5s otherwise, and the result is the
'API failure after retries' sentinel string (returned, not thrown); a
failure on attempt 1 followed by success on attempt 2 waits 10s (429) or
5s (otherwise). -/
theorem retry_backoff :
    ∀ (resp : Nat → GenOutcome),
      (generateSummaryWithClaude resp).attempts ≤ 3 ∧
      (∀ text, resp 1 = GenOutcome.err true → resp 2 = GenOutcome.err true →
        resp 3 = GenOutcome.ok text →
        generateSummaryWithClaude resp =
          ⟨truncateSummary text, [10000, 20000], 3⟩) ∧
      (∀ b₁ b₂ b₃, resp 1 = GenOutcome.err b₁ → resp 2 = GenOutcome.err b₂ →
        resp 3 = GenOutcome.err b₃ →
        generateSummaryWithClaude resp =
          ⟨apiFailureSentinel,
           [if b₁ then 10000 else 5000, if b₂ then 20000 else 5000], 3⟩) ∧
      (∀ b text, resp 1 = GenOutcome.err b → resp 2 = GenOutcome.ok text →
        generateSummaryWithClaude resp =
          ⟨truncateSummary text, [if b then 10000 else 5000], 2⟩) := by
  intro resp
  refine ⟨?_, ?_, ?_, ?_⟩
  · cases h1 : resp 1 <;> cases h2 : resp 2 <;> cases h3 : resp 3 <;>
      simp [generateSummaryWithClaude, genAttempts, h1, h2, h3]
  · intro text h1 h2 h3
    simp [generateSummaryWithClaude, genAttempts, h1, h2, h3]
  · intro b₁ b₂ b₃ h1 h2 h3
    simp [generateSummaryWithClaude, genAttempts, h1, h2, h3]
  · intro b text h1 h2
    simp [generateSummaryWithClaude, genAttempts, h1, h2]

/-- Witness for `binary_classification_amended`: content of length 100
with 31 NUL characters is skipped; content with 29 is passed to
generation. -/
theorem binary_classification_amended_witness :
    (100 * nonPrintableCount
        (List.replicate 31 (Char.ofNat 0) ++ List.replicate 69 'a') =
      31 * (List.replicate 31 (Char.ofNat 0) ++ List.replicate 69 'a').length) ∧
    (processItem
        (FetchOutcome.ok
          (List.replicate 31 (Char.ofNat 0) ++ List.replicate 69 'a'))
        (fun _ => GenOutcome.ok ['s'])).skipped = true ∧
    (100 * nonPrintableCount
        (List.replicate 29 (Char.ofNat 0) ++ List.replicate 71 'a') =
      29 * (List.replicate 29 (Char.ofNat 0) ++ List.replicate 71 'a').length) ∧
    (processItem
        (FetchOutcome.ok
          (List.replicate 29 (Char.ofNat 0) ++ List.replicate 71 'a'))
        (fun _ => GenOutcome.ok ['s'])).skipped = false :=
  ⟨by decide,
   (binary_classification_amended _ (fun _ => GenOutcome.ok ['s'])).2.2.1
     (by decide),
   by decide,
   ((binary_classification_amended _ (fun _ => GenOutcome.ok ['s'])).2.2.2
     (by decide) (by decide)).1⟩

/-- Witness for `retry_backoff` at a concrete oracle: two 429 failures
then success give exactly the waits 10s, 20s and three attempts. -/
theorem retry_backoff_witness :
    generateSummaryWithClaude respTwice429 =
      ⟨truncateSummary ['o', 'k'], [10000, 20000], 3⟩ :=
  (retry_backoff respTwice429).2.1 ['o', 'k'] rfl rfl rfl

lemma splitNl_ne_nil (s : List Char) : splitNl s ≠ [] := by
  induction s with
  | nil => simp [splitNl]
  | cons c rest ih =>
    simp only [splitNl]
    split
    · simp
    · cases h : splitNl rest <;> simp

lemma no_nl_of_mem_splitNl :
    ∀ (s l : List Char), l ∈ splitNl s → '\n' ∉ l := by
  intro s
  induction s with
  | nil =>
    intro l hl
    simp [splitNl] at hl
    subst hl
    simp
  | cons c rest ih =>
    intro l hl
    by_cases hc : c = '\n'
    · subst hc
      simp [splitNl] at hl
      rcases hl with h | h
      · subst h; simp
      · exact ih l h
    · rw [splitNl, if_neg hc] at hl
      cases hrest : splitNl rest with
      | nil => exact absurd hrest (splitNl_ne_nil rest)
      | cons a t =>
        rw [hrest] at hl
        simp at hl
        rcases hl with h1 | h1
        · subst h1
          intro hmem
          rcases List.mem_cons.mp hmem with h2 | h2
          · exact hc h2.symm
          · exact ih a (by rw [hrest]; exact List.mem_cons_self _ _) h2
        · exact ih l (by rw [hrest]; exact List.mem_cons_of_mem _ h1)

lemma splitNl_append (l s : List Char) (h : '\n' ∉ l) :
    splitNl (l ++ s) =
      match splitNl s with
      | [] => [l]
      | a :: t => (l ++ a) :: t := by
  induction l with
  | nil =>
    cases hs : splitNl s with
    | nil => exact absurd hs (splitNl_ne_nil s)
    | cons a t => simp [hs]
  | cons c l' ih =>
    have hc : ¬c = '\n' := fun hcc => h (hcc ▸ List.mem_cons_self c l')
    have h' : '\n' ∉ l' := fun hm => h (List.mem_cons_of_mem _ hm)
    rw [List.cons_append, splitNl, if_neg hc, ih h']
    cases hs : splitNl s with
    | nil => exact absurd hs (splitNl_ne_nil s)
    | cons a t => simp

lemma splitNl_joinNl :
    ∀ (parts : List (List Char)), parts ≠ [] →
      (∀ l ∈ parts, '\n' ∉ l) → splitNl (joinNl parts) = parts := by
  intro parts
  induction parts with
  | nil => intro h; exact absurd rfl h
  | cons l rest ih =>
    intro _ hnl
    cases rest with
    | nil =>
      have hl : '\n' ∉ l := hnl l (List.mem_cons_self _ _)
      have : splitNl (l ++ []) =
          match splitNl ([] : List Char) with
          | [] => [l]
          | a :: t => (l ++ a) :: t := splitNl_append l [] hl
      simpa [joinNl, splitNl] using this
    | cons l₂ t =>
      have hl : '\n' ∉ l := hnl l (List.mem_cons_self _ _)
      have hrest : splitNl (joinNl (l₂ :: t)) = l₂ :: t :=
        ih (List.cons_ne_nil _ _) fun x hx => hnl x (List.mem_cons_of_mem _ hx)
      have hstep : splitNl ('\n' :: joinNl (l₂ :: t)) =
          [] :: splitNl (joinNl (l₂ :: t)) := by
        rw [splitNl, if_pos rfl]
      rw [joinNl, splitNl_append l ('\n' :: joinNl (l₂ :: t)) hl, hstep, hrest]
      all_goals simp

/-- C10: on a successful generation call the stored summary is exactly
the first at most 3 non-empty lines of the (trimmed) remote response
joined with newlines: it equals the spec-side description, it has at most
3 lines, it is empty when the response has no non-empty lines, and
otherwise its lines are the first `min 3 m` non-empty lines in order. -/
theorem summary_truncation :
    ∀ (resp : Nat → GenOutcome) (text : List Char),
      resp 1 = GenOutcome.ok text →
      (generateSummaryWithClaude resp).summary =
          specFirstThreeNonEmptyLines text ∧
      (splitNl (generateSummaryWithClaude resp).summary).length ≤ 3 ∧
      (nonblankLines text = [] → (generateSummaryWithClaude resp).summary = []) ∧
      (nonblankLines text ≠ [] →
        splitNl (generateSummaryWithClaude resp).summary =
          (nonblankLines text).take 3) := by
  intro resp text h1
  have hsum : (generateSummaryWithClaude resp).summary = truncateSummary text := by
    simp [generateSummaryWithClaude, genAttempts, h1]
  have heq : truncateSummary text = joinNl ((nonblankLines text).take 3) := rfl
  by_cases hf : nonblankLines text = []
  · refine ⟨by rw [hsum]; rfl, ?_, fun _ => ?_, fun hne => absurd hf hne⟩
    · rw [hsum, heq, hf]
      simp [joinNl, splitNl]
    · rw [hsum, heq, hf]
      rfl
  · have hsub : ∀ l ∈ (nonblankLines text).take 3, '\n' ∉ l := by
      intro l hl
      have hl₂ : l ∈ nonblankLines text := List.take_subset _ _ hl
      have hl₃ : l ∈ splitNl (jsTrim text) := List.mem_of_mem_filter hl₂
      exact no_nl_of_mem_splitNl (jsTrim text) l hl₃
    have hne3 : (nonblankLines text).take 3 ≠ [] := by
      cases hc : nonblankLines text with
      | nil => exact absurd hc hf
      | cons a t => simp [hc]
    have hround : splitNl (joinNl ((nonblankLines text).take 3)) =
        (nonblankLines text).take 3 :=
      splitNl_joinNl _ hne3 hsub
    refine ⟨by rw [hsum]; rfl, ?_, fun hnil => absurd hnil hf, fun _ => ?_⟩
    · rw [hsum, heq, hround]
      exact List.length_take_le 3 (nonblankLines text)
    · rw [hsum, heq, hround]

/-- Witness for `summary_truncation`: a five-line response with a blank
line stores exactly its first three non-blank lines. -/
theorem summary_truncation_witness :
    (generateSummaryWithClaude fun _ => GenOutcome.ok "A\n\nB\nC\nD".data).summary
        = specFirstThreeNonEmptyLines "A\n\nB\nC\nD".data ∧
    splitNl (generateSummaryWithClaude
        fun _ => GenOutcome.ok "A\n\nB\nC\nD".data).summary
      = [['A'], ['B'], ['C']] :=
  ⟨(summary_truncation _ "A\n\nB\nC\nD".data rfl).1,
   by
    rw [(summary_truncation _ "A\n\nB\nC\nD".data rfl).2.2.2 (by decide)]
    decide⟩

lemma stepItem_summaries (N : Nat) (excelPath : String) (f : FileEntry)
    (fetch : FetchOutcome) (resp : Nat → GenOutcome) (i : Nat)
    (st : LoopState) :
    (stepItem N excelPath f fetch resp i st).summaries =
      st.summaries ++
        [⟨f.fileName, f.directory, (processItem fetch resp).briefing⟩] := rfl

lemma stepItem_trace (N : Nat) (excelPath : String) (f : FileEntry)
    (fetch : FetchOutcome) (resp : Nat → GenOutcome) (i : Nat)
    (st : LoopState) :
    (stepItem N excelPath f fetch resp i st).trace =
      st.trace ++ [Ev.fetchCall i] ++
        (if (processItem fetch resp).skipped then []
         else if i + 1 < N then [Ev.delay i 3000] else []) ++
        [Ev.row i ⟨f.fileName, f.directory, (processItem fetch resp).briefing⟩] ++
        (if (i + 1) % 10 = 0 then
          [Ev.save ⟨excelPath,
            st.summaries ++
              [⟨f.fileName, f.directory, (processItem fetch resp).briefing⟩],
            i + 1⟩]
         else []) := rfl

lemma loopAux_summaries (excelPath : String) (N : Nat) (oracle : Oracle) :
    ∀ (fs : List FileEntry) (i : Nat) (st : LoopState),
      (loopAux excelPath N oracle fs i st).summaries =
        st.summaries ++ rowsOf oracle fs i := by
  intro fs
  induction fs with
  | nil => intro i st; simp [loopAux, rowsOf]
  | cons f rest ih =>
    intro i st
    rw [loopAux, ih, stepItem_summaries]
    simp [rowsOf, rowOf]

lemma rowsOf_append (oracle : Oracle) :
    ∀ (a b : List FileEntry) (i : Nat),
      rowsOf oracle (a ++ b) i =
        rowsOf oracle a i ++ rowsOf oracle b (i + a.length) := by
  intro a
  induction a with
  | nil => intro b i; simp [rowsOf]
  | cons f rest ih =>
    intro b i
    simp only [List.cons_append, rowsOf, List.length_cons]
    have h1 : rowsOf oracle (rest.append b) (i + 1) =
        rowsOf oracle rest (i + 1) ++ rowsOf oracle b (i + 1 + rest.length) :=
      ih b (i + 1)
    rw [h1]
    have harith : i + 1 + rest.length = i + (rest.length + 1) := by omega
    rw [harith]

lemma rowsOf_length (oracle : Oracle) :
    ∀ (fs : List FileEntry) (i : Nat),
      (rowsOf oracle fs i).length = fs.length := by
  intro fs
  induction fs with
  | nil => intro i; rfl
  | cons f rest ih => intro i; simp [rowsOf, ih]

lemma loadProgress_len (excelPath : String) (cp : CheckpointFile) :
    (loadProgress excelPath cp).1.length = (loadProgress excelPath cp).2 := by
  cases cp with
  | absent => rfl
  | corrupt => rfl
  | valid s => by_cases h : s.excelPath = excelPath <;> simp [loadProgress, h]

lemma run_output (excelPath : String) (files : List FileEntry)
    (cp : CheckpointFile) (oracle : Oracle) :
    (generateFileSummaries excelPath files cp oracle true).output =
      if files.isEmpty then none
      else some ((loadProgress excelPath cp).1 ++
        rowsOf oracle (files.drop (loadProgress excelPath cp).2)
          (loadProgress excelPath cp).2) := by
  by_cases hemp : files.isEmpty <;>
    simp [generateFileSummaries, hemp, loopAux_summaries]

/-- C1: resume equivalence.  For any catalog, any oracle of per-item
remote responses and any crash point K ≤ N, a resumed run seeded with the
checkpoint holding the first K rows (and starting the loop at index K)
produces the same final artifact, row for row in order, as the
uninterrupted run. -/
theorem resume_equivalence :
    ∀ (excelPath : String) (files : List FileEntry) (oracle : Oracle)
      (K : Nat), K ≤ files.length →
      (generateFileSummaries excelPath files
          (CheckpointFile.valid
            ⟨excelPath, (rowsOf oracle files 0).take K, K⟩)
          oracle true).output =
        (generateFileSummaries excelPath files CheckpointFile.absent oracle
          true).output ∧
      (generateFileSummaries excelPath files CheckpointFile.absent oracle
          true).output =
        (if files.isEmpty then none else some (rowsOf oracle files 0)) := by
  intro excelPath files oracle K hK
  have habs : (generateFileSummaries excelPath files CheckpointFile.absent
      oracle true).output =
      if files.isEmpty then none else some (rowsOf oracle files 0) := by
    rw [run_output]
    by_cases hemp : files.isEmpty <;> simp [hemp, loadProgress]
  refine ⟨?_, habs⟩
  rw [run_output, habs]
  by_cases hemp : files.isEmpty
  · simp [hemp]
  · simp only [hemp, Bool.false_eq_true, if_false]
    have hKlen : ((rowsOf oracle files 0).take K).length = K := by
      rw [List.length_take, rowsOf_length]
      omega
    have hload : loadProgress excelPath
        (CheckpointFile.valid ⟨excelPath, (rowsOf oracle files 0).take K, K⟩) =
        ((rowsOf oracle files 0).take K, K) := by
      simp [loadProgress, hKlen]
    rw [hload]
    have htakeK : (files.take K).length = K := by
      rw [List.length_take]
      omega
    have hsplit : rowsOf oracle files 0 =
        rowsOf oracle (files.take K) 0 ++ rowsOf oracle (files.drop K) K := by
      conv_lhs => rw [← List.take_append_drop K files]
      rw [rowsOf_append, htakeK, Nat.zero_add]
    have hAlen : (rowsOf oracle (files.take K) 0).length = K := by
      rw [rowsOf_length, htakeK]
    have htake : (rowsOf oracle files 0).take K =
        rowsOf oracle (files.take K) 0 := by
      rw [hsplit]
      exact List.take_left' hAlen
    rw [htake, ← hsplit]

/-- Witness for `resume_equivalence`: a two-item catalog interrupted after
one checkpointed item resumes to the same artifact. -/
theorem resume_equivalence_witness :
    (generateFileSummaries "p" [fileA, fileB]
        (CheckpointFile.valid
          ⟨"p", (rowsOf oracleOkS [fileA, fileB] 0).take 1, 1⟩)
        oracleOkS true).output =
      (generateFileSummaries "p" [fileA, fileB] CheckpointFile.absent
        oracleOkS true).output :=
  (resume_equivalence "p" [fileA, fileB] oracleOkS 1 (by decide)).1

/-- C2 (as stated) is false on the code: with a checkpoint file that
exists but cannot be parsed, `generateFileSummaries` catches the parse
error with only a warning and runs from index 0, completing normally and
processing items — it does not surface an error or exit non-zero before
any item is processed. -/
theorem corrupt_checkpoint_counterexample :
    (generateFileSummaries "p" [fileA] CheckpointFile.corrupt oracleOkS
        true).completed = true ∧
    (generateFileSummaries "p" [fileA] CheckpointFile.corrupt oracleOkS
        true).output =
      some [⟨fileA.fileName, fileA.directory, truncateSummary ['s']⟩] ∧
    Ev.row 0 ⟨fileA.fileName, fileA.directory, truncateSummary ['s']⟩ ∈
      (generateFileSummaries "p" [fileA] CheckpointFile.corrupt oracleOkS
        true).trace := by
  decide

/-- C2 amended: a checkpoint file that exists but cannot be parsed is
silently discarded — `generateFileSummaries` catches the parse error,
logs a warning, and restarts from index 0 producing the same artifact as
a run with no checkpoint at all; the `resume` CLI command on a corrupt
checkpoint reports it cannot resume, processes nothing, and exits 0 (not
non-zero). -/
theorem corrupt_checkpoint_amended :
    ∀ (excelPath : String) (files : List FileEntry) (oracle : Oracle)
      (artifactWriteOk : Bool),
      loadProgress excelPath CheckpointFile.corrupt = ([], 0) ∧
      (generateFileSummaries excelPath files CheckpointFile.corrupt oracle
          artifactWriteOk).output =
        (generateFileSummaries excelPath files CheckpointFile.absent oracle
          artifactWriteOk).output ∧
      resumeSummaries CheckpointFile.corrupt files oracle artifactWriteOk =
        ⟨0, none⟩ := by
  intro excelPath files oracle ok
  refine ⟨rfl, ?_, rfl⟩
  by_cases hemp : files.isEmpty
  · simp [generateFileSummaries, hemp]
  · cases ok <;> simp [generateFileSummaries, hemp, loadProgress]

lemma savesOf_append :
    ∀ (a b : List Ev), savesOf (a ++ b) = savesOf a ++ savesOf b := by
  intro a b
  induction a with
  | nil => rfl
  | cons e rest ih => cases e <;> simp [savesOf, ih]

lemma mem_cleanupEvents (cp : CheckpointFile) (tr : List Ev) (e : Ev) :
    e ∈ cleanupEvents cp tr → e = Ev.deleteCheckpoint := by
  unfold cleanupEvents
  split_ifs <;> simp

lemma savesOf_cleanupEvents (cp : CheckpointFile) (tr : List Ev) :
    savesOf (cleanupEvents cp tr) = [] := by
  unfold cleanupEvents
  split_ifs <;> rfl

lemma stepItem_saves (N : Nat) (excelPath : String) (f : FileEntry)
    (fetch : FetchOutcome) (resp : Nat → GenOutcome) (i : Nat)
    (st : LoopState) :
    savesOf (stepItem N excelPath f fetch resp i st).trace =
      savesOf st.trace ++
        (if (i + 1) % 10 = 0 then
          [⟨excelPath,
            st.summaries ++
              [⟨f.fileName, f.directory, (processItem fetch resp).briefing⟩],
            i + 1⟩]
         else []) := by
  rw [stepItem_trace, savesOf_append, savesOf_append, savesOf_append,
    savesOf_append]
  split_ifs with h1 h2 <;> simp [savesOf]

lemma loopAux_saves_inv (excelPath : String) (N : Nat) (oracle : Oracle) :
    ∀ (fs : List FileEntry) (i : Nat) (st : LoopState),
      st.summaries.length = i →
      (∀ s ∈ savesOf st.trace,
        s.lastProcessed = s.summaries.length ∧ s.lastProcessed ≤ i ∧
          ∃ t, s.summaries ++ t = st.summaries) →
      (savesOf st.trace).Pairwise snapExtends →
      (∀ s ∈ savesOf (loopAux excelPath N oracle fs i st).trace,
        s.lastProcessed = s.summaries.length) ∧
      (savesOf (loopAux excelPath N oracle fs i st).trace).Pairwise
        snapExtends := by
  intro fs
  induction fs with
  | nil =>
    intro i st _ hsaves hpw
    exact ⟨fun s hs => (hsaves s hs).1, hpw⟩
  | cons f rest ih =>
    intro i st hlen hsaves hpw
    rw [loopAux]
    refine ih (i + 1) _ ?_ ?_ ?_
    · rw [stepItem_summaries, List.length_append, hlen]
      rfl
    · intro s hs
      rw [stepItem_saves] at hs
      rcases List.mem_append.mp hs with hold | hnew
      · obtain ⟨e1, e2, t, ht⟩ := hsaves s hold
        refine ⟨e1, by omega,
          ⟨t ++ [⟨f.fileName, f.directory,
            (processItem (oracle i).1 (oracle i).2).briefing⟩], ?_⟩⟩
        rw [stepItem_summaries, ← ht, List.append_assoc]
      · by_cases hmod : (i + 1) % 10 = 0
        · rw [if_pos hmod] at hnew
          simp only [List.mem_singleton] at hnew
          subst hnew
          refine ⟨?_, le_refl _, ⟨[], by rw [stepItem_summaries, List.append_nil]⟩⟩
          simp [List.length_append, hlen]
        · rw [if_neg hmod] at hnew
          simp at hnew
    · rw [stepItem_saves]
      apply List.pairwise_append.mpr
      refine ⟨hpw, ?_, ?_⟩
      · split_ifs <;> simp
      · intro a ha b hb
        by_cases hmod : (i + 1) % 10 = 0
        · rw [if_pos hmod] at hb
          simp only [List.mem_singleton] at hb
          subst hb
          obtain ⟨e1, e2, t, ht⟩ := hsaves a ha
          refine ⟨?_, ⟨t ++ [⟨f.fileName, f.directory,
            (processItem (oracle i).1 (oracle i).2).briefing⟩], ?_⟩⟩
          · show a.lastProcessed < i + 1
            omega
          · show a.summaries ++ (t ++ _) =
              st.summaries ++ [⟨f.fileName, f.directory,
                (processItem (oracle i).1 (oracle i).2).briefing⟩]
            rw [← List.append_assoc, ht]
        · rw [if_neg hmod] at hb
          simp at hb

lemma run_saves (excelPath : String) (files : List FileEntry)
    (cp : CheckpointFile) (oracle : Oracle) (artifactWriteOk : Bool) :
    savesOf (generateFileSummaries excelPath files cp oracle
        artifactWriteOk).trace =
      savesOf (loopAux excelPath files.length oracle
        (files.drop (loadProgress excelPath cp).2)
        (loadProgress excelPath cp).2
        ⟨(loadProgress excelPath cp).1, 0, 0, []⟩).trace := by
  by_cases hemp : files.isEmpty
  · have hnil : files = [] := List.isEmpty_iff.mp hemp
    subst hnil
    simp [generateFileSummaries, savesOf, loopAux]
  · cases artifactWriteOk with
    | false => simp [generateFileSummaries, hemp]
    | true =>
      simp only [generateFileSummaries, hemp, Bool.false_eq_true, if_false,
        if_true]
      rw [savesOf_append, savesOf_append, savesOf_cleanupEvents]
      simp [savesOf]

/-- C3: at every checkpoint save of a run, the saved `lastProcessed`
equals the length of the saved `summaries`, and across successive saves
within one run `lastProcessed` strictly increases with each later
snapshot's results extending the earlier one's. -/
theorem snapshot_invariant :
    ∀ (excelPath : String) (files : List FileEntry) (cp : CheckpointFile)
      (oracle : Oracle) (artifactWriteOk : Bool),
      (∀ s ∈ savesOf (generateFileSummaries excelPath files cp oracle
          artifactWriteOk).trace,
        s.lastProcessed = s.summaries.length) ∧
      (savesOf (generateFileSummaries excelPath files cp oracle
          artifactWriteOk).trace).Pairwise snapExtends := by
  intro excelPath files cp oracle ok
  rw [run_saves]
  exact loopAux_saves_inv excelPath files.length oracle _ _ _
    (loadProgress_len excelPath cp) (by simp [savesOf]) (by simp [savesOf])

/-- Witness for `snapshot_invariant`: in a 10-item run the first (and
only) saved snapshot has `lastProcessed` equal to its results length. -/
theorem snapshot_invariant_witness :
    ((savesOf (generateFileSummaries "p" tenFiles CheckpointFile.absent
        oracleOkS true).trace).headI).lastProcessed =
      ((savesOf (generateFileSummaries "p" tenFiles CheckpointFile.absent
        oracleOkS true).trace).headI).summaries.length :=
  (snapshot_invariant "p" tenFiles CheckpointFile.absent oracleOkS true).1
    ((savesOf (generateFileSummaries "p" tenFiles CheckpointFile.absent
      oracleOkS true).trace).headI)
    (by decide)

lemma delay_mem_stepItem (N : Nat) (excelPath : String) (f : FileEntry)
    (fetch : FetchOutcome) (resp : Nat → GenOutcome) (j : Nat)
    (st : LoopState) (i ms : Nat) :
    Ev.delay i ms ∈ (stepItem N excelPath f fetch resp j st).trace ↔
      Ev.delay i ms ∈ st.trace ∨
        (i = j ∧ ms = 3000 ∧ (processItem fetch resp).skipped = false ∧
         j + 1 < N) := by
  rw [stepItem_trace]
  by_cases hsk : (processItem fetch resp).skipped
  · rw [if_pos hsk]
    split_ifs with hmod <;> simp [hsk]
  · rw [if_neg hsk]
    by_cases hlt : j + 1 < N
    · rw [if_pos hlt]
      split_ifs with hmod <;> simp [hsk, hlt, eq_comm]
    · rw [if_neg hlt]
      split_ifs with hmod <;> simp [hsk, hlt]

lemma delay_mem_loopAux (excelPath : String) (N : Nat) (oracle : Oracle)
    (i ms : Nat) :
    ∀ (fs : List FileEntry) (j : Nat) (st : LoopState),
      Ev.delay i ms ∈ (loopAux excelPath N oracle fs j st).trace ↔
        Ev.delay i ms ∈ st.trace ∨
          (j ≤ i ∧ i < j + fs.length ∧ ms = 3000 ∧
           (processItem (oracle i).1 (oracle i).2).skipped = false ∧
           i + 1 < N) := by
  intro fs
  induction fs with
  | nil =>
    intro j st
    rw [loopAux]
    constructor
    · exact Or.inl
    · rintro (h | ⟨h1, h2, _⟩)
      · exact h
      · simp at h2
        omega
  | cons f rest ih =>
    intro j st
    rw [loopAux, ih, delay_mem_stepItem]
    constructor
    · rintro ((h | ⟨hij, hms, hsk, hN⟩) | ⟨h1, h2, h3, h4, h5⟩)
      · exact Or.inl h
      · subst hij
        exact Or.inr ⟨le_refl _, by simp, hms, hsk, hN⟩
      · refine Or.inr ⟨by omega, ?_, h3, h4, h5⟩
        simp only [List.length_cons]
        omega
    · rintro (h | ⟨h1, h2, h3, h4, h5⟩)
      · exact Or.inl (Or.inl h)
      · by_cases hij : i = j
        · subst hij
          exact Or.inl (Or.inr ⟨rfl, h3, h4, h5⟩)
        · refine Or.inr ⟨by omega, ?_, h3, h4, h5⟩
          simp only [List.length_cons] at h2
          omega

/-- C8: in a fresh full run, a 3-second inter-item delay happens exactly
after the items that were not skipped and are not the last item of the
catalog — and those are the only delay events of the loop. -/
theorem inter_item_pacing :
    ∀ (excelPath : String) (files : List FileEntry) (oracle : Oracle)
      (i ms : Nat),
      Ev.delay i ms ∈ (generateFileSummaries excelPath files
          CheckpointFile.absent oracle true).trace ↔
        (i + 1 < files.length ∧
         (processItem (oracle i).1 (oracle i).2).skipped = false ∧
         ms = 3000) := by
  intro excelPath files oracle i ms
  by_cases hemp : files.isEmpty
  · have hnil : files = [] := List.isEmpty_iff.mp hemp
    subst hnil
    simp [generateFileSummaries, loopAux]
  · simp only [generateFileSummaries, hemp, Bool.false_eq_true, if_false,
      if_true, loadProgress, List.drop_zero]
    rw [List.mem_append, List.mem_append, delay_mem_loopAux]
    constructor
    · rintro (((hst | hcond) | hw) | hi)
      · simp at hst
      · exact ⟨hcond.2.2.2.2, hcond.2.2.2.1, hcond.2.2.1⟩
      · simp at hw
      · exact absurd (mem_cleanupEvents _ _ _ hi) (by simp)
    · rintro ⟨ha, hb, hc⟩
      exact Or.inl (Or.inl (Or.inr ⟨Nat.zero_le i, by omega, hc, hb, ha⟩))

/-- Witness for `inter_item_pacing`: in a two-item run with no skips
there is a 3s delay after item 0 and none after the final item 1. -/
theorem inter_item_pacing_witness :
    Ev.delay 0 3000 ∈ (generateFileSummaries "p" [fileA, fileB]
        CheckpointFile.absent oracleOkS true).trace ∧
    Ev.delay 1 3000 ∉ (generateFileSummaries "p" [fileA, fileB]
        CheckpointFile.absent oracleOkS true).trace :=
  ⟨(inter_item_pacing "p" [fileA, fileB] oracleOkS 0 3000).mpr
      ⟨by decide, by decide, rfl⟩,
   fun h =>
     absurd ((inter_item_pacing "p" [fileA, fileB] oracleOkS 1 3000).mp h).1
       (by decide)⟩

lemma stepItem_trace_loopEv (N : Nat) (excelPath : String) (f : FileEntry)
    (fetch : FetchOutcome) (resp : Nat → GenOutcome) (j : Nat)
    (st : LoopState) :
    ∀ e ∈ (stepItem N excelPath f fetch resp j st).trace,
      e ∈ st.trace ∨ Ev.isLoopEv e = true := by
  intro e he
  rw [stepItem_trace] at he
  rcases List.mem_append.mp he with h | h
  · rcases List.mem_append.mp h with h | h
    · rcases List.mem_append.mp h with h | h
      · rcases List.mem_append.mp h with h | h
        · exact Or.inl h
        · simp only [List.mem_singleton] at h
          subst h
          exact Or.inr rfl
      · split_ifs at h
        · simp at h
        · simp only [List.mem_singleton] at h
          subst h
          exact Or.inr rfl
        · simp at h
    · simp only [List.mem_singleton] at h
      subst h
      exact Or.inr rfl
  · split_ifs at h
    · simp only [List.mem_singleton] at h
      subst h
      exact Or.inr rfl
    · simp at h

lemma loopAux_trace_loopEv (excelPath : String) (N : Nat) (oracle : Oracle) :
    ∀ (fs : List FileEntry) (j : Nat) (st : LoopState),
      ∀ e ∈ (loopAux excelPath N oracle fs j st).trace,
        e ∈ st.trace ∨ Ev.isLoopEv e = true := by
  intro fs
  induction fs with
  | nil => intro j st e he; exact Or.inl he
  | cons f rest ih =>
    intro j st e he
    rcases ih (j + 1) _ e he with h | h
    · exact stepItem_trace_loopEv N excelPath f (oracle j).1 (oracle j).2 j st
        e h
    · exact Or.inr h

lemma cleanupEvents_eq_delete (cp : CheckpointFile) (tr : List Ev)
    (h : cp ≠ CheckpointFile.absent ∨ ∃ s, Ev.save s ∈ tr) :
    cleanupEvents cp tr = [Ev.deleteCheckpoint] := by
  rcases h with h | ⟨s, hs⟩
  · cases cp with
    | absent => exact absurd rfl h
    | corrupt => rfl
    | valid s₂ => rfl
  · unfold cleanupEvents
    split_ifs with hc
    · rfl
    · exfalso
      apply hc
      cases cp with
      | absent =>
        show (tr.any fun e =>
          match e with | Ev.save _ => true | _ => false) = true
        exact List.any_eq_true.mpr ⟨Ev.save s, hs, rfl⟩
      | corrupt => rfl
      | valid s₂ => rfl

/-- C9: a run whose artifact write succeeds produces a trace of the form
`loop events ++ [artifact write] ++ cleanup`, where no checkpoint
deletion and no artifact write occur among the loop events, the cleanup
tail contains only the checkpoint deletion, the written artifact has one
row per catalog item, and — the positive clearing guarantee — whenever a
checkpoint file is present after the loop (it existed at run start, or a
save happened during the loop) the cleanup tail is exactly the deletion,
so the checkpoint is actually cleared, after the write; a run whose
artifact write fails propagates the exception (`completed = false`) and
never deletes the checkpoint. -/
theorem completion_ordering :
    ∀ (excelPath : String) (files : List FileEntry) (cp : CheckpointFile)
      (oracle : Oracle),
      files ≠ [] → (loadProgress excelPath cp).2 ≤ files.length →
      (∃ pre tail rows,
        (generateFileSummaries excelPath files cp oracle true).trace =
          pre ++ [Ev.writeArtifact rows] ++ tail ∧
        (generateFileSummaries excelPath files cp oracle true).output =
          some rows ∧
        rows.length = files.length ∧
        Ev.deleteCheckpoint ∉ pre ∧
        (∀ rows₂, Ev.writeArtifact rows₂ ∉ pre) ∧
        (∀ e ∈ tail, e = Ev.deleteCheckpoint) ∧
        ((cp ≠ CheckpointFile.absent ∨ (∃ s, Ev.save s ∈ pre)) →
          tail = [Ev.deleteCheckpoint]) ∧
        (generateFileSummaries excelPath files cp oracle true).completed =
          true) ∧
      ((generateFileSummaries excelPath files cp oracle false).completed =
          false ∧
        Ev.deleteCheckpoint ∉
          (generateFileSummaries excelPath files cp oracle false).trace ∧
        (∀ rows₂, Ev.writeArtifact rows₂ ∉
          (generateFileSummaries excelPath files cp oracle false).trace)) := by
  intro excelPath files cp oracle hne hstart
  have hemp : files.isEmpty = false := by
    cases files with
    | nil => exact absurd rfl hne
    | cons a b => rfl
  set st := loopAux excelPath files.length oracle
    (files.drop (loadProgress excelPath cp).2) (loadProgress excelPath cp).2
    ⟨(loadProgress excelPath cp).1, 0, 0, []⟩ with hst
  have hloopEv : ∀ e ∈ st.trace, Ev.isLoopEv e = true := by
    intro e he
    rcases loopAux_trace_loopEv excelPath files.length oracle _ _ _ e he with
      h | h
    · simp at h
    · exact h
  have hnode : Ev.deleteCheckpoint ∉ st.trace := by
    intro h
    have := hloopEv _ h
    simp [Ev.isLoopEv] at this
  have hnowr : ∀ rows₂, Ev.writeArtifact rows₂ ∉ st.trace := by
    intro rows₂ h
    have := hloopEv _ h
    simp [Ev.isLoopEv] at this
  have hrowlen : st.summaries.length = files.length := by
    rw [hst, loopAux_summaries, List.length_append, rowsOf_length,
      List.length_drop, loadProgress_len]
    omega
  have hclear : (cp ≠ CheckpointFile.absent ∨ (∃ s, Ev.save s ∈ st.trace)) →
      cleanupEvents cp st.trace = [Ev.deleteCheckpoint] :=
    fun h => cleanupEvents_eq_delete cp st.trace h
  constructor
  · refine ⟨st.trace, cleanupEvents cp st.trace, st.summaries, ?_, ?_,
      hrowlen, hnode, hnowr, fun e he => mem_cleanupEvents cp st.trace e he,
      hclear, ?_⟩
    · simp [generateFileSummaries, hemp, hst]
    · simp [generateFileSummaries, hemp, hst]
    · simp [generateFileSummaries, hemp]
  · refine ⟨?_, ?_, ?_⟩
    · simp [generateFileSummaries, hemp]
    · show Ev.deleteCheckpoint ∉
        (generateFileSummaries excelPath files cp oracle false).trace
      simp only [generateFileSummaries, hemp, Bool.false_eq_true, if_false]
      exact hnode
    · intro rows₂
      simp only [generateFileSummaries, hemp, Bool.false_eq_true, if_false]
      exact hnowr rows₂

/-- Witness for `completion_ordering` at a one-item run whose checkpoint
file exists (corrupt) at run start: the conclusion is instantiated by the
theorem, and the deletion is concretely exercised — the run's trace does
contain the checkpoint deletion, after the artifact write. -/
theorem completion_ordering_witness :
    ((∃ pre tail rows,
      (generateFileSummaries "p" [fileA] CheckpointFile.corrupt oracleOkS
          true).trace =
        pre ++ [Ev.writeArtifact rows] ++ tail ∧
      (generateFileSummaries "p" [fileA] CheckpointFile.corrupt oracleOkS
          true).output = some rows ∧
      rows.length = [fileA].length ∧
      Ev.deleteCheckpoint ∉ pre ∧
      (∀ rows₂, Ev.writeArtifact rows₂ ∉ pre) ∧
      (∀ e ∈ tail, e = Ev.deleteCheckpoint) ∧
      ((CheckpointFile.corrupt ≠ CheckpointFile.absent ∨
          (∃ s, Ev.save s ∈ pre)) →
        tail = [Ev.deleteCheckpoint]) ∧
      (generateFileSummaries "p" [fileA] CheckpointFile.corrupt oracleOkS
          true).completed = true) ∧
    ((generateFileSummaries "p" [fileA] CheckpointFile.corrupt oracleOkS
        false).completed = false ∧
      Ev.deleteCheckpoint ∉
        (generateFileSummaries "p" [fileA] CheckpointFile.corrupt oracleOkS
          false).trace ∧
      (∀ rows₂, Ev.writeArtifact rows₂ ∉
        (generateFileSummaries "p" [fileA] CheckpointFile.corrupt oracleOkS
          false).trace))) ∧
    (generateFileSummaries "p" [fileA] CheckpointFile.corrupt oracleOkS
        true).trace =
      [Ev.fetchCall 0,
       Ev.row 0 ⟨fileA.fileName, fileA.directory, truncateSummary ['s']⟩,
       Ev.writeArtifact
         [⟨fileA.fileName, fileA.directory, truncateSummary ['s']⟩],
       Ev.deleteCheckpoint] :=
  ⟨completion_ordering "p" [fileA] CheckpointFile.corrupt oracleOkS
    (by decide) (by decide),
   by decide⟩

lemma fetchCalls_append (i : Nat) (a b : List Ev) :
    fetchCallsFor i (a ++ b) = fetchCallsFor i a + fetchCallsFor i b := by
  unfold fetchCallsFor
  rw [List.filter_append, List.length_append]

lemma fetchCalls_stepItem (N : Nat) (excelPath : String) (f : FileEntry)
    (fetch : FetchOutcome) (resp : Nat → GenOutcome) (j : Nat)
    (st : LoopState) (i : Nat) :
    fetchCallsFor i (stepItem N excelPath f fetch resp j st).trace =
      fetchCallsFor i st.trace + (if i = j then 1 else 0) := by
  rw [stepItem_trace, fetchCalls_append, fetchCalls_append, fetchCalls_append,
    fetchCalls_append]
  have h1 : fetchCallsFor i [Ev.fetchCall j] = if i = j then 1 else 0 := by
    by_cases h : i = j
    · subst h
      simp [fetchCallsFor]
    · simp [fetchCallsFor, h]
      omega
  have h2 : fetchCallsFor i
      (if (processItem fetch resp).skipped then []
       else if j + 1 < N then [Ev.delay j 3000] else []) = 0 := by
    split_ifs <;> simp [fetchCallsFor]
  have h3 : fetchCallsFor i
      [Ev.row j ⟨f.fileName, f.directory, (processItem fetch resp).briefing⟩]
      = 0 := by
    simp [fetchCallsFor]
  have h4 : fetchCallsFor i
      (if (j + 1) % 10 = 0 then
        [Ev.save ⟨excelPath,
          st.summaries ++
            [⟨f.fileName, f.directory, (processItem fetch resp).briefing⟩],
          j + 1⟩]
       else []) = 0 := by
    split_ifs <;> simp [fetchCallsFor]
  rw [h1, h2, h3, h4]
  omega

lemma fetchCalls_loopAux (excelPath : String) (N : Nat) (oracle : Oracle)
    (i : Nat) :
    ∀ (fs : List FileEntry) (j : Nat) (st : LoopState),
      fetchCallsFor i (loopAux excelPath N oracle fs j st).trace =
        fetchCallsFor i st.trace +
          (if j ≤ i ∧ i < j + fs.length then 1 else 0) := by
  intro fs
  induction fs with
  | nil =>
    intro j st
    rw [loopAux]
    have hfalse : ¬(j ≤ i ∧ i < j + ([] : List FileEntry).length) := by
      simp only [List.length_nil, Nat.add_zero]
      omega
    rw [if_neg hfalse, Nat.add_zero]
  | cons f rest ih =>
    intro j st
    rw [loopAux, ih, fetchCalls_stepItem]
    simp only [List.length_cons]
    split_ifs <;> omega

lemma fetchCalls_cleanup (i : Nat) (cp : CheckpointFile) (tr : List Ev) :
    fetchCallsFor i (cleanupEvents cp tr) = 0 := by
  unfold cleanupEvents
  split_ifs <;> simp [fetchCallsFor]

lemma fetchCalls_run (excelPath : String) (files : List FileEntry)
    (oracle : Oracle) (i : Nat) :
    fetchCallsFor i (generateFileSummaries excelPath files
        CheckpointFile.absent oracle true).trace =
      fetchCallsFor i (loopAux excelPath files.length oracle files 0
        ⟨[], 0, 0, []⟩).trace := by
  by_cases hemp : files.isEmpty
  · have hnil : files = [] := List.isEmpty_iff.mp hemp
    subst hnil
    simp [generateFileSummaries, loopAux, fetchCallsFor]
  · simp only [generateFileSummaries, hemp, Bool.false_eq_true, if_false,
      if_true, loadProgress, List.drop_zero]
    rw [fetchCalls_append, fetchCalls_append, fetchCalls_cleanup]
    have hw : fetchCallsFor i [Ev.writeArtifact (loopAux excelPath
        files.length oracle files 0 ⟨[], 0, 0, []⟩).summaries] = 0 := by
      simp [fetchCallsFor]
    rw [hw]
    omega

/-- C6 (as stated) is false on the code: an item whose content retrieval
fails is counted as *skipped* (`skippedCount`), with the same
'Binary file or unable to read content' briefing as a binary file, and
`errorCount` stays 0 — it is not marked failed. -/
theorem fetch_failure_counterexample :
    (loopAux "p" 2 oracleFetchFail [fileA, fileB] 0
        ⟨[], 0, 0, []⟩).skippedCount = 1 ∧
    (loopAux "p" 2 oracleFetchFail [fileA, fileB] 0
        ⟨[], 0, 0, []⟩).errorCount = 0 ∧
    (loopAux "p" 2 oracleFetchFail [fileA, fileB] 0 ⟨[], 0, 0, []⟩).summaries
      = [⟨fileA.fileName, fileA.directory, binarySentinel⟩,
         ⟨fileB.fileName, fileB.directory, truncateSummary ['s']⟩] := by
  decide

/-- C6 amended: a failed content retrieval is not retried (the download
runs exactly once per item), makes no generation call, and processing
continues with the next item — but the item is marked with the same skip
outcome as binary content (briefing 'Binary file or unable to read
content', `skippedCount` incremented), not with a failed status
(`errorCount` unchanged). -/
theorem fetch_failure_amended :
    ∀ (resp : Nat → GenOutcome) (excelPath : String)
      (files : List FileEntry) (oracle : Oracle) (i : Nat),
      processItem FetchOutcome.error resp =
        ⟨binarySentinel, true, 0, []⟩ ∧
      (i < files.length →
        fetchCallsFor i (generateFileSummaries excelPath files
          CheckpointFile.absent oracle true).trace = 1) ∧
      (files ≠ [] →
        (generateFileSummaries excelPath files CheckpointFile.absent oracle
            true).output = some (rowsOf oracle files 0) ∧
        (rowsOf oracle files 0).length = files.length) ∧
      (∀ (N : Nat) (f : FileEntry) (st : LoopState),
        (stepItem N excelPath f FetchOutcome.error resp i st).errorCount =
          st.errorCount ∧
        (stepItem N excelPath f FetchOutcome.error resp i st).skippedCount =
          st.skippedCount + 1 ∧
        (stepItem N excelPath f FetchOutcome.error resp i st).summaries =
          st.summaries ++ [⟨f.fileName, f.directory, binarySentinel⟩]) := by
  intro resp excelPath files oracle i
  have hpi : processItem FetchOutcome.error resp =
      ⟨binarySentinel, true, 0, []⟩ := rfl
  refine ⟨hpi, ?_, ?_, ?_⟩
  · intro hi
    rw [fetchCalls_run, fetchCalls_loopAux]
    have htrue : 0 ≤ i ∧ i < 0 + files.length := ⟨Nat.zero_le i, by omega⟩
    rw [if_pos htrue]
    rfl
  · intro hne
    have hemp : files.isEmpty = false := by
      cases files with
      | nil => exact absurd rfl hne
      | cons a b => rfl
    constructor
    · rw [run_output]
      simp [hemp, loadProgress]
    · exact rowsOf_length oracle files 0
  · intro N f st
    refine ⟨?_, ?_, ?_⟩
    · show st.errorCount +
        (if !(processItem FetchOutcome.error resp).skipped &&
            List.isPrefixOf errPre (processItem FetchOutcome.error resp).briefing
         then 1 else 0) = st.errorCount
      rw [hpi]
      rfl
    · show st.skippedCount +
        (if (processItem FetchOutcome.error resp).skipped then 1 else 0) =
        st.skippedCount + 1
      rw [hpi]
      simp
    · rw [stepItem_summaries, hpi]

/-- Witness for `fetch_failure_amended` at a concrete run. -/
theorem fetch_failure_amended_witness :
    processItem FetchOutcome.error (fun _ => GenOutcome.ok ['s']) =
      ⟨binarySentinel, true, 0, []⟩ ∧
    fetchCallsFor 0 (generateFileSummaries "p" [fileA, fileB]
        CheckpointFile.absent oracleFetchFail true).trace = 1 :=
  ⟨(fetch_failure_amended (fun _ => GenOutcome.ok ['s']) "p" [fileA, fileB]
      oracleFetchFail 0).1,
   (fetch_failure_amended (fun _ => GenOutcome.ok ['s']) "p" [fileA, fileB]
      oracleFetchFail 0).2.1 (by decide)⟩

/-- C7 (as stated) is false on the code: the save is a bare
`fs.writeFileSync` to the checkpoint path (no temporary file, no rename),
so a crash mid-save can be observed with the checkpoint path holding a
proper prefix of the new payload — neither the old content nor the
complete new content. -/
theorem save_atomicity_counterexample :
    cpMidState ∈ crashStates cpOldFs (saveProgressOps cpPath cpNewPayload) ∧
    cpMidState cpPath ≠ cpOldFs cpPath ∧
    cpMidState cpPath ≠ some cpNewPayload := by
  refine ⟨?_, by decide, by decide⟩
  rw [saveProgressOps, crashStates, duringOp]
  apply List.mem_append_left
  apply List.mem_cons_of_mem
  exact List.mem_map.mpr ⟨1, by decide, rfl⟩

/-- C7 amended: the save issues a single direct in-place write of the
serialized snapshot to the checkpoint path — no rename is involved — so
while a crash can never be observed with anything other than the old
content or a prefix of the new payload, *every* prefix of the new
payload (half-written content included) is an observable crash state of
the checkpoint path. -/
theorem save_atomicity_amended :
    ∀ (fs : FileSys) (path : String) (payload : List Char),
      ((saveProgressOps path payload).all fun op =>
        match op with | FsOp.rename _ _ => false | _ => true) = true ∧
      (∀ s ∈ crashStates fs (saveProgressOps path payload),
        s path = fs path ∨
          ∃ k, k ≤ payload.length ∧ s path = some (payload.take k)) ∧
      (∀ k, k ≤ payload.length →
        ∃ s ∈ crashStates fs (saveProgressOps path payload),
          s path = some (payload.take k)) := by
  intro fs path payload
  refine ⟨rfl, ?_, ?_⟩
  · intro s hs
    rw [saveProgressOps, crashStates, duringOp] at hs
    rcases List.mem_append.mp hs with h | h
    · rcases List.mem_cons.mp h with h | h
      · subst h
        exact Or.inl rfl
      · obtain ⟨k, hk, rfl⟩ := List.mem_map.mp h
        refine Or.inr ⟨k, ?_, by simp⟩
        have := List.mem_range.mp hk
        omega
    · rw [crashStates] at h
      rcases List.mem_cons.mp h with h | h
      · subst h
        refine Or.inr ⟨payload.length, le_refl _, ?_⟩
        simp [applyOp, List.take_length]
      · simp at h
  · intro k hk
    refine ⟨fun q => if q = path then some (payload.take k) else fs q, ?_, by simp⟩
    rw [saveProgressOps, crashStates, duringOp]
    apply List.mem_append_left
    apply List.mem_cons_of_mem
    exact List.mem_map.mpr ⟨k, List.mem_range.mpr (by omega), rfl⟩

/-- Witness for `save_atomicity_amended`: the one-character prefix of the
new payload is an observable crash state at the checkpoint path. -/
theorem save_atomicity_amended_witness :
    ∃ s ∈ crashStates cpOldFs (saveProgressOps cpPath cpNewPayload),
      s cpPath = some (cpNewPayload.take 1) :=
  (save_atomicity_amended cpOldFs cpPath cpNewPayload).2.2 1 (by decide)

end SummaryEngine
